import Mathlib

/-!
Verification development for `poem/core/models.py` (pose-embedding model
architecture builders).  The Python code builds TensorFlow computation
graphs; we embed the construction functions as pure Lean functions that
build terms of an explicit graph type `Tensor`, together with static-shape
bookkeeping (TF's `shape.as_list()`), and prove the spec's claims about
the constructed graphs.
-/

namespace Poem

/-- A node of the constructed tensor computation graph.  Each constructor
corresponds to one of the tensor-framework operations invoked by
`models.py`: placeholders/inputs, `tf.get_variable` (with its static
shape), `tf.clip_by_norm`, `tf.linalg.matmul`, tensor addition (`+`),
tensor-plus-scalar (`+ 1.0`), `tf.layers.batch_normalization` (with its
`training` flag), `tf.nn.relu`, `tf.nn.dropout` (with its rate),
`tf.nn.elu`, `data_utils.sample_gaussians` (with `num_samples` and
`seed`), `tf.stack` (with its axis), and the individual slices returned
by `tf.unstack` (tensor, axis, slice index).  Floats appearing in the
graph (clip norms, dropout rates) are represented exactly as rationals. -/
inductive Tensor where
  | input : String → Tensor
  | var : String → List Nat → Tensor
  | clip_by_norm : Tensor → Rat → Tensor
  | matmul : Tensor → Tensor → Tensor
  | add : Tensor → Tensor → Tensor
  | add_const : Tensor → Rat → Tensor
  | batch_norm : Tensor → Bool → String → Tensor
  | relu : Tensor → String → Tensor
  | dropout : Tensor → Rat → String → Tensor
  | elu : Tensor → Tensor
  | sample_gaussians : Tensor → Tensor → Int → Option Int → Tensor
  | stack : List Tensor → Int → Tensor
  | unstack_at : Tensor → Int → Nat → Tensor

/-- The direct sub-graphs of a node. -/
def children : Tensor → List Tensor
  | .input _ => []
  | .var _ _ => []
  | .clip_by_norm t _ => [t]
  | .matmul a b => [a, b]
  | .add a b => [a, b]
  | .add_const t _ => [t]
  | .batch_norm t _ _ => [t]
  | .relu t _ => [t]
  | .dropout t _ _ => [t]
  | .elu t => [t]
  | .sample_gaussians a b _ _ => [a, b]
  | .stack ts _ => ts
  | .unstack_at t _ _ => [t]

theorem sizeOf_children {t : Tensor} {c : Tensor} (h : c ∈ children t) :
    sizeOf c < sizeOf t := by
  cases t <;> simp_all [children] <;>
    first
      | (cases h <;> simp_all <;> omega)
      | (have hlt := List.sizeOf_lt_of_mem h; omega)
      | omega

/-- Whether some node of the graph satisfies the node predicate `hit`. -/
def occurs (hit : Tensor → Bool) (t : Tensor) : Bool :=
  hit t || (children t).attach.any (fun c => occurs hit c.1)
termination_by sizeOf t
decreasing_by exact sizeOf_children c.2

/-- Node predicate: is this node a `data_utils.sample_gaussians` op? -/
def isSampleNode : Tensor → Bool
  | .sample_gaussians _ _ _ _ => true
  | _ => false

/-- Node predicate: is this node a `tf.nn.dropout` op? -/
def isDropoutNode : Tensor → Bool
  | .dropout _ _ _ => true
  | _ => false

/-- Node predicate: is this node a `tf.clip_by_norm` op? -/
def isClipNode : Tensor → Bool
  | .clip_by_norm _ _ => true
  | _ => false

/-! ### Static shape bookkeeping

TF tensors carry a static shape (`shape.as_list()`).  We model shapes as
`List Nat` and implement the shape rules of the operations used by
`models.py`. -/

/-- Insert `v` at position `i` of a shape (used by `tf.stack` and by the
extra sample dimension of `sample_gaussians`). -/
def insertAt : Nat → Nat → List Nat → List Nat
  | 0, v, l => v :: l
  | _ + 1, v, [] => [v]
  | i + 1, v, a :: l => a :: insertAt i v l

/-- Remove position `i` of a shape (used by `tf.unstack`). -/
def removeAt : Nat → List Nat → List Nat
  | _, [] => []
  | 0, _ :: l => l
  | i + 1, a :: l => a :: removeAt i l

/-- Normalize a possibly negative axis against the rank of the result
tensor (Python negative-axis convention). -/
def normAxis (axis : Int) (resultRank : Nat) : Nat :=
  (if axis < 0 then axis + resultRank else axis).toNat

/-- NumPy-style broadcast of two shapes, aligned from the right
(`bcastR` works on the reversed shapes).  Only ever applied by this
development to shapes where broadcasting is defined. -/
def bcastR : List Nat → List Nat → List Nat
  | [], t => t
  | s, [] => s
  | a :: s, b :: t => max a b :: bcastR s t

/-- NumPy-style broadcast of two shapes. -/
def bcast (s t : List Nat) : List Nat :=
  (bcastR s.reverse t.reverse).reverse

/-- A graph tensor together with its static shape. -/
structure Ten where
  g : Tensor
  shape : List Nat

instance : Inhabited Ten := ⟨⟨Tensor.input "KeyError", []⟩⟩

/-- `tf.linalg.matmul` of a features tensor with a rank-2 weight matrix
`[d, o]`: shape `[..., d] -> [..., o]`. -/
def matmulT (a b : Ten) : Ten :=
  ⟨Tensor.matmul a.g b.g, a.shape.dropLast ++ [b.shape.getLast?.getD 0]⟩

/-- Tensor addition with broadcasting. -/
def addT (a b : Ten) : Ten :=
  ⟨Tensor.add a.g b.g, bcast a.shape b.shape⟩

/-- `tf.stack` of a list of same-shape tensors along `axis`. -/
def stackT (ts : List Ten) (axis : Int) : Ten :=
  let s := (ts.head?.map Ten.shape).getD []
  ⟨Tensor.stack (ts.map Ten.g) axis, insertAt (normAxis axis (s.length + 1)) ts.length s⟩

/-- The `i`-th slice produced by `tf.unstack(x, axis)`. -/
def unstackAtT (x : Ten) (axis : Int) (i : Nat) : Ten :=
  ⟨Tensor.unstack_at x.g axis i, removeAt (normAxis axis x.shape.length) x.shape⟩

/-- `tf.nn.elu(x) + 1.0` (shape preserving). -/
def eluP1T (x : Ten) : Ten :=
  ⟨Tensor.add_const (Tensor.elu x.g) 1, x.shape⟩

/-- `data_utils.sample_gaussians(means, stddevs, num_samples, seed)`.
Modelled from the spec: `data_utils` is not under `src/`; per the
docstring of `simple_gaussian_embedder` in `models.py`, sampling turns a
per-component tensor of shape `[..., dim]` into samples of shape
`[..., num_samples, dim]`. -/
def sampleT (means stddevs : Ten) (num_samples : Int) (seed : Option Int) : Ten :=
  ⟨Tensor.sample_gaussians means.g stddevs.g num_samples seed,
    insertAt (means.shape.length - 1) num_samples.toNat means.shape⟩

/-! ### Python dictionaries as association lists

Python `dict`s preserve insertion order; we model them as association
lists, with assignment `d[k] = v` replacing in place when the key exists
and appending otherwise. -/

/-- Dictionary lookup (`d.get(k)`). -/
def dlookup {κ α : Type} [DecidableEq κ] (d : List (κ × α)) (k : κ) : Option α :=
  (d.find? (fun p => decide (p.1 = k))).map Prod.snd

/-- Dictionary assignment `d[k] = v`. -/
def dinsert {κ α : Type} [DecidableEq κ] : List (κ × α) → κ → α → List (κ × α)
  | [], k, v => [(k, v)]
  | p :: ps, k, v => if p.1 = k then (k, v) :: ps else p :: dinsert ps k v

/-- Dictionary subscript read `d[k]`.  All reads performed by the code
are at keys that are present, so the `KeyError` default is never hit. -/
def dget {κ α : Type} [DecidableEq κ] [Inhabited α] (d : List (κ × α)) (k : κ) : α :=
  (dlookup d k).getD default

/-! ### Output dictionary keys

Modelled from the spec: the `common` module is not under `src/`.  It
defines distinct string constants `KEY_EMBEDDING_MEANS`,
`KEY_EMBEDDING_STDDEVS` and `KEY_EMBEDDING_SAMPLES` naming the
embedding outputs, and `models.py`'s `_add_prefix` prepends the
component index as `'C%d/' % c`.  Since the three constants are
distinct strings and the prefixed forms are determined by `(c, key)`,
we use an inductive key type; `keyName` gives the corresponding string
used in variable-scope names. -/
inductive OutKey where
  | means
  | stddevs
  | samples
  | comp : Nat → OutKey → OutKey
deriving DecidableEq, Repr

/-- The string rendering of an output key (the `common` constants are
modelled from the spec, see `OutKey`); `comp c k` renders as
`'C%d/' % c + k`, exactly `_add_prefix` in `models.py`. -/
def keyName : OutKey → String
  | .means => "embedding_means"
  | .stddevs => "embedding_stddevs"
  | .samples => "embedding_samples"
  | .comp c k => "C" ++ toString c ++ "/" ++ keyName k

/-- `_add_prefix = lambda key, c: 'C%d/' % c + key` from `models.py`,
at the level of structured keys. -/
def add_pref (key : OutKey) (c : Nat) : OutKey := OutKey.comp c key

abbrev OutDict := List (OutKey × Ten)
abbrev ActDict := List (String × Ten)

/-! ### The `**kwargs` dictionary

The optional keyword arguments threaded through `simple_base`,
`simple_model` and the embedders, with the default value each `get`
call (or default parameter) supplies in `models.py`.  The two weight
initializer arguments are not modelled: they only determine initial
variable values, which never appear in the constructed graph. -/
structure Kw where
  num_hidden_nodes : Nat := 1024
  weight_max_norm : Rat := 0
  use_batch_norm : Bool := true
  dropout_rate : Rat := 0
  num_fcs_per_block : Nat := 2
  num_fc_blocks : Nat := 2
  name : String := "SimpleModel"
  num_bottleneck_nodes : Int := 0
  num_embedding_samples : Int := 0
  seed : Option Int := none

/-! ### The model builders of `models.py` -/

/-- `_linear` from `models.py`: a linear layer with optional weight-norm
clipping.  The weight variable has shape
`[input_features.shape.as_list()[-1], output_size]`. -/
def _linear (input_features : Ten) (output_size : Nat) (weight_max_norm : Rat)
    (name : String) : Ten :=
  let d := input_features.shape.getLast?.getD 0
  let weights : Ten := ⟨Tensor.var (name ++ "/weight") [d, output_size], [d, output_size]⟩
  let weights :=
    if 0 < weight_max_norm then
      ⟨Tensor.clip_by_norm weights.g weight_max_norm, weights.shape⟩
    else weights
  let bias : Ten := ⟨Tensor.var (name ++ "/bias") [output_size], [output_size]⟩
  addT (matmulT input_features weights) bias

/-- `simple_base.fully_connected`: linear layer, optional batch
normalization, ReLU, optional dropout (dropout only in training mode
with a positive rate). -/
def fully_connected (kw : Kw) (input_features : Ten) (is_training : Bool)
    (name : String) : Ten :=
  let net := _linear input_features kw.num_hidden_nodes kw.weight_max_norm
    (name ++ "/Linear")
  let net :=
    if kw.use_batch_norm then
      ⟨Tensor.batch_norm net.g is_training (name ++ "/BatchNorm"), net.shape⟩
    else net
  let net : Ten := ⟨Tensor.relu net.g (name ++ "/Relu"), net.shape⟩
  if is_training ∧ 0 < kw.dropout_rate then
    ⟨Tensor.dropout net.g kw.dropout_rate (name ++ "/Dropout"), net.shape⟩
  else net

/-- `simple_base.fully_connected_block`: `num_fcs_per_block` sequential
fully-connected layers followed by a residual skip connection
(`net += input_features`). -/
def fully_connected_block (kw : Kw) (input_features : Ten) (is_training : Bool)
    (name : String) : Ten :=
  let net := (List.range kw.num_fcs_per_block).foldl
    (fun net i => fully_connected kw net is_training (name ++ "/FC_" ++ toString i))
    input_features
  addT net input_features

/-- `simple_base`: one input fully-connected layer followed by
`num_fc_blocks` residual blocks. -/
def simple_base (kw : Kw) (input_features : Ten) (is_training : Bool) : Ten :=
  let net := fully_connected kw input_features is_training (kw.name ++ "/InputFC")
  (List.range kw.num_fc_blocks).foldl
    (fun net i =>
      fully_connected_block kw net is_training
        (kw.name ++ "/FullyConnectedBlock_" ++ toString i))
    net

/-- `simple_model`: base network, optional bottleneck layer (iff
`num_bottleneck_nodes > 0`), and one output linear head per entry of
`output_sizes`.  All callers in this module pass integer output sizes,
so only the integer branch of the Python `output_size` handling is
modelled (the list branch calls `data_utils` reshaping helpers that are
not under `src/` and are unused here). -/
def simple_model (kw : Kw) (input_features : Ten) (output_sizes : List (OutKey × Nat))
    (is_training : Bool) : OutDict × ActDict :=
  let base := simple_base kw input_features is_training
  let activations : ActDict := [("base_activations", base)]
  let netacts : Ten × ActDict :=
    if 0 < kw.num_bottleneck_nodes then
      let bn := _linear base kw.num_bottleneck_nodes.toNat kw.weight_max_norm
        (kw.name ++ "/BottleneckLogits")
      (bn, activations ++ [("bottleneck_activations", bn)])
    else (base, activations)
  let outputs : OutDict := output_sizes.map (fun p =>
    (p.1, _linear netacts.1 p.2 kw.weight_max_norm
      (kw.name ++ "/OutputLogits/" ++ keyName p.1)))
  (outputs, netacts.2)

/-- The `output_sizes` dictionary built by `simple_point_embedder`:
`{_add_prefix(KEY_EMBEDDING_MEANS, c): embedding_size for c in range(n)}`. -/
def pointSizes (n e : Nat) : List (OutKey × Nat) :=
  (List.range n).map (fun c => (add_pref OutKey.means c, e))

/-- `simple_point_embedder`: a point embedder with
`num_embedding_components` mean heads stacked along axis `-2`. -/
def simple_point_embedder (kw : Kw) (input_features : Ten)
    (num_embedding_components embedding_size : Nat) (is_training : Bool) :
    OutDict × ActDict :=
  let r := simple_model kw input_features
    (pointSizes num_embedding_components embedding_size) is_training
  ([(OutKey.means,
      stackT ((List.range num_embedding_components).map
        (fun c => dget r.1 (add_pref OutKey.means c))) (-2))],
   r.2)

/-- The `output_sizes` dictionary built by `simple_gaussian_embedder`
(a fresh dict repeatedly extended with the mean and stddev key of each
component, in component order). -/
def gaussSizes (n e : Nat) : List (OutKey × Nat) :=
  (List.range n).foldl
    (fun acc c => acc ++ [(add_pref OutKey.means c, e), (add_pref OutKey.stddevs c, e)])
    []

/-- One iteration of the per-component loop of
`simple_gaussian_embedder`: replace the component's stddev entry by
`elu(...) + 1.0`, then (iff `num_embedding_samples > 0`) insert the
component's Gaussian samples drawn from the updated mean/stddev pair. -/
def gaussStep (num_embedding_samples : Int) (seed : Option Int)
    (d : OutDict) (c : Nat) : OutDict :=
  let d1 := dinsert d (add_pref OutKey.stddevs c)
    (eluP1T (dget d (add_pref OutKey.stddevs c)))
  if 0 < num_embedding_samples then
    dinsert d1 (add_pref OutKey.samples c)
      (sampleT (dget d1 (add_pref OutKey.means c))
        (dget d1 (add_pref OutKey.stddevs c)) num_embedding_samples seed)
  else d1

/-- `simple_gaussian_embedder`: Gaussian (mixture) embedder with mean,
stddev, and (iff `num_embedding_samples > 0`) sample outputs. -/
def simple_gaussian_embedder (kw : Kw) (input_features : Ten)
    (num_embedding_components embedding_size : Nat)
    (num_embedding_samples : Int) (is_training : Bool) (seed : Option Int) :
    OutDict × ActDict :=
  let r := simple_model kw input_features
    (gaussSizes num_embedding_components embedding_size) is_training
  let component_outputs := (List.range num_embedding_components).foldl
    (gaussStep num_embedding_samples seed) r.1
  let outputs : OutDict :=
    [(OutKey.means,
       stackT ((List.range num_embedding_components).map
         (fun c => dget component_outputs (add_pref OutKey.means c))) (-2)),
     (OutKey.stddevs,
       stackT ((List.range num_embedding_components).map
         (fun c => dget component_outputs (add_pref OutKey.stddevs c))) (-2))]
  let outputs :=
    if 0 < num_embedding_samples then
      outputs ++
        [(OutKey.samples,
           stackT ((List.range num_embedding_components).map
             (fun c => dget component_outputs (add_pref OutKey.samples c))) (-3))]
    else outputs
  (outputs, r.2)

/-! ### Embedding-type dispatch -/

/-- Modelled from the spec: the `common` module (not under `src/`)
defines two distinct embedding-type string constants,
`EMBEDDING_TYPE_POINT` and `EMBEDDING_TYPE_GAUSSIAN`; any other string
value is unsupported.  `other s` stands for any such unsupported
value. -/
inductive EmbeddingType where
  | point
  | gaussian
  | other : String → EmbeddingType
deriving DecidableEq, Repr

/-- Whether an embedding type is one of the two supported constants. -/
def supportedType : EmbeddingType → Bool
  | .other _ => false
  | _ => true

/-- String rendering of an embedding type (for the `ValueError`
message; constants modelled from the spec, see `EmbeddingType`). -/
def embTypeStr : EmbeddingType → String
  | .point => "point"
  | .gaussian => "gaussian"
  | .other s => s

/-- The embedder function handle `create_embedder` returns for a
supported type, with `num_embedding_components` and `embedding_size`
partially applied; the remaining arguments (`is_training` and the
`**kwargs` dictionary, which carries `num_embedding_samples` and `seed`
for the Gaussian embedder) come from the call site. -/
def selected_embedder (ty : EmbeddingType) (n e : Nat) :
    Ten → Bool → Kw → OutDict × ActDict :=
  fun x tr kw =>
    match ty with
    | .gaussian => simple_gaussian_embedder kw x n e kw.num_embedding_samples tr kw.seed
    | _ => simple_point_embedder kw x n e tr

/-- A raised Python exception: its type and its message. -/
inductive PyErr where
  | valueError : String → PyErr
  | indexError : String → PyErr
deriving DecidableEq, Repr

/-- `create_embedder`: returns an embedder builder handle, or raises
`ValueError` for an unsupported embedding type. -/
def create_embedder (ty : EmbeddingType) (n e : Nat) :
    Except PyErr (Ten → Bool → Kw → OutDict × ActDict) :=
  match ty with
  | .point => .ok (selected_embedder .point n e)
  | .gaussian => .ok (selected_embedder .gaussian n e)
  | .other s =>
      .error (.valueError ("Unsupported embedding type: `" ++ s ++ "`."))

/-- The `ValueError` raised by `embed` for an input rank other than 2
or 3. -/
def rankMsg (rank : Nat) : PyErr :=
  .valueError ("Only supports input feature tensors of rank 2 or 3: " ++
    toString rank ++ ".")

/-- `embed`: rank-dispatch wrapper.  Rank-2 inputs go straight to the
embedder; rank-3 inputs are unstacked along axis 1, embedded
per-instance, and the per-key results restacked along axis 1; any other
rank raises `ValueError`.  Accessing `sub_output_list[0]` on an empty
unstacking (zero instances) raises `IndexError` in Python, modelled by
the corresponding error value. -/
def embed (input_features : Ten) (ty : EmbeddingType) (n e : Nat)
    (is_training : Bool) (kw : Kw) : Except PyErr (OutDict × ActDict) :=
  let rank := input_features.shape.length
  if ¬(rank = 2 ∨ rank = 3) then .error (rankMsg rank)
  else
    match create_embedder ty n e with
    | .error m => .error m
    | .ok f =>
      if rank = 2 then .ok (f input_features is_training kw)
      else
        let m := (input_features.shape[1]?).getD 0
        let subs := (List.range m).map
          (fun i => f (unstackAtT input_features 1 i) is_training kw)
        match subs with
        | [] => .error (.indexError "list index out of range")
        | s0 :: _ =>
          .ok (s0.1.map (fun p =>
                 (p.1, stackT (subs.map (fun s => dget s.1 p.1)) 1)),
               s0.2.map (fun p =>
                 (p.1, stackT (subs.map (fun s => dget s.2 p.1)) 1)))

/-- Whether an `Except` result is a raised Python `ValueError`. -/
def isValueError {α : Type} : Except PyErr α → Bool
  | .error (.valueError _) => true
  | _ => false

/-! ### Basic lemmas: `occurs`, dictionaries, folds over `range` -/

theorem any_attach {α : Type} (l : List α) (f : α → Bool) :
    (l.attach.any fun c => f c.1) = l.any f := by
  rw [Bool.eq_iff_iff, List.any_eq_true, List.any_eq_true]
  constructor
  · rintro ⟨⟨x, hx⟩, -, hfx⟩
    exact ⟨x, hx, hfx⟩
  · rintro ⟨x, hx, hfx⟩
    exact ⟨⟨x, hx⟩, List.mem_attach _ _, hfx⟩

theorem occurs_eq (hit : Tensor → Bool) (t : Tensor) :
    occurs hit t = (hit t || (children t).any (occurs hit)) := by
  rw [occurs, any_attach]

theorem dlookup_cons {κ α : Type} [DecidableEq κ] (p : κ × α) (ps : List (κ × α)) (k : κ) :
    dlookup (p :: ps) k = if p.1 = k then some p.2 else dlookup ps k := by
  by_cases h : p.1 = k
  · simp [dlookup, List.find?_cons_of_pos, h]
  · simp [dlookup, List.find?_cons_of_neg, h]

theorem dlookup_dinsert {κ α : Type} [DecidableEq κ] (d : List (κ × α)) (k k' : κ) (v : α) :
    dlookup (dinsert d k v) k' = if k' = k then some v else dlookup d k' := by
  induction d with
  | nil =>
    by_cases h : k' = k
    · simp [dinsert, dlookup_cons, h]
    · simp [dinsert, dlookup_cons, h, Ne.symm h]
  | cons p ps ih =>
    by_cases hp : p.1 = k
    · subst hp
      by_cases hk : k' = p.1
      · subst hk
        simp [dinsert, dlookup_cons]
      · simp [dinsert, dlookup_cons, hk, Ne.symm hk]
    · by_cases hk : k' = k
      · subst hk
        simp [dinsert, hp, dlookup_cons, ih, Ne.symm hp]
      · simp [dinsert, hp, dlookup_cons, ih, hk]

theorem dlookup_map_keyed {κ α β : Type} [DecidableEq κ]
    (l : List (κ × α)) (f : κ × α → β) (k : κ) :
    dlookup (l.map (fun p => (p.1, f p))) k =
      (l.find? (fun p => decide (p.1 = k))).map f := by
  induction l with
  | nil => rfl
  | cons p ps ih =>
    by_cases h : p.1 = k
    · simp [dlookup_cons, h, List.find?_cons_of_pos]
    · simp only [List.map_cons, dlookup_cons, h, if_false]
      rw [List.find?_cons_of_neg, ih]
      simp [h]

theorem foldl_range_succ {β : Type} (f : β → Nat → β) (x : β) (n : Nat) :
    (List.range (n + 1)).foldl f x = f ((List.range n).foldl f x) n := by
  rw [List.range_succ, List.foldl_append, List.foldl_cons, List.foldl_nil]

/-! ### Lookups in the embedders' `output_sizes` dictionaries -/

theorem pointSizes_succ (n e : Nat) :
    pointSizes (n + 1) e = pointSizes n e ++ [(add_pref OutKey.means n, e)] := by
  simp [pointSizes, List.range_succ]

theorem find?_pointSizes_ge {n c : Nat} (e : Nat) (h : n ≤ c) (k : OutKey) :
    (pointSizes n e).find? (fun p => decide (p.1 = add_pref k c)) = none := by
  induction n with
  | zero => rfl
  | succ m ih =>
    rw [pointSizes_succ, List.find?_append, ih (by omega)]
    simp [add_pref]
    omega

theorem find?_pointSizes {n c : Nat} (e : Nat) (h : c < n) :
    (pointSizes n e).find? (fun p => decide (p.1 = add_pref OutKey.means c)) =
      some (add_pref OutKey.means c, e) := by
  induction n with
  | zero => omega
  | succ m ih =>
    rw [pointSizes_succ, List.find?_append]
    by_cases hc : c < m
    · rw [ih hc]
      rfl
    · have hcm : c = m := by omega
      subst hcm
      rw [find?_pointSizes_ge e (le_refl c)]
      simp [add_pref]

theorem gaussSizes_succ (n e : Nat) :
    gaussSizes (n + 1) e =
      gaussSizes n e ++ [(add_pref OutKey.means n, e), (add_pref OutKey.stddevs n, e)] := by
  unfold gaussSizes
  rw [foldl_range_succ]

theorem find?_gaussSizes_ge {n c : Nat} (e : Nat) (h : n ≤ c) (k : OutKey) :
    (gaussSizes n e).find? (fun p => decide (p.1 = add_pref k c)) = none := by
  induction n with
  | zero => rfl
  | succ m ih =>
    rw [gaussSizes_succ, List.find?_append, ih (by omega)]
    simp [add_pref]
    omega

theorem find?_gaussSizes_means {n c : Nat} (e : Nat) (h : c < n) :
    (gaussSizes n e).find? (fun p => decide (p.1 = add_pref OutKey.means c)) =
      some (add_pref OutKey.means c, e) := by
  induction n with
  | zero => omega
  | succ m ih =>
    rw [gaussSizes_succ, List.find?_append]
    by_cases hc : c < m
    · rw [ih hc]
      rfl
    · have hcm : c = m := by omega
      subst hcm
      rw [find?_gaussSizes_ge e (le_refl c)]
      simp [add_pref]

theorem find?_gaussSizes_stddevs {n c : Nat} (e : Nat) (h : c < n) :
    (gaussSizes n e).find? (fun p => decide (p.1 = add_pref OutKey.stddevs c)) =
      some (add_pref OutKey.stddevs c, e) := by
  induction n with
  | zero => omega
  | succ m ih =>
    rw [gaussSizes_succ, List.find?_append]
    by_cases hc : c < m
    · rw [ih hc]
      rfl
    · have hcm : c = m := by omega
      subst hcm
      rw [find?_gaussSizes_ge e (le_refl c)]
      simp [add_pref]

/-! ### The per-component mutation loop of the Gaussian embedder -/

theorem gaussStep_lookup_ne {ns : Int} {seed : Option Int} {d : OutDict} {c c' : Nat}
    (k : OutKey) (h : c' ≠ c) :
    dlookup (gaussStep ns seed d c) (add_pref k c') = dlookup d (add_pref k c') := by
  by_cases hns : 0 < ns <;>
    simp [gaussStep, hns, dlookup_dinsert, add_pref, h]

theorem gaussStep_lookup_means_self {ns : Int} {seed : Option Int} {d : OutDict} {c : Nat} :
    dlookup (gaussStep ns seed d c) (add_pref OutKey.means c) =
      dlookup d (add_pref OutKey.means c) := by
  by_cases hns : 0 < ns <;>
    simp [gaussStep, hns, dlookup_dinsert, add_pref]

theorem gaussStep_lookup_stddevs_self {ns : Int} {seed : Option Int} {d : OutDict} {c : Nat} :
    dlookup (gaussStep ns seed d c) (add_pref OutKey.stddevs c) =
      some (eluP1T (dget d (add_pref OutKey.stddevs c))) := by
  by_cases hns : 0 < ns <;>
    simp [gaussStep, hns, dlookup_dinsert, add_pref]

theorem gaussStep_lookup_samples_self {ns : Int} {seed : Option Int} {d : OutDict} {c : Nat}
    (hns : 0 < ns) :
    dlookup (gaussStep ns seed d c) (add_pref OutKey.samples c) =
      some (sampleT (dget d (add_pref OutKey.means c))
        (eluP1T (dget d (add_pref OutKey.stddevs c))) ns seed) := by
  simp [gaussStep, hns, dlookup_dinsert, add_pref, dget]

theorem gaussFold_ge {ns : Int} {seed : Option Int} {d : OutDict} {n c : Nat}
    (h : n ≤ c) (k : OutKey) :
    dlookup ((List.range n).foldl (gaussStep ns seed) d) (add_pref k c) =
      dlookup d (add_pref k c) := by
  induction n with
  | zero => rfl
  | succ m ih =>
    rw [foldl_range_succ, gaussStep_lookup_ne k (by omega), ih (by omega)]

theorem gaussFold_means {ns : Int} {seed : Option Int} {d : OutDict} {n c : Nat}
    (h : c < n) :
    dlookup ((List.range n).foldl (gaussStep ns seed) d) (add_pref OutKey.means c) =
      dlookup d (add_pref OutKey.means c) := by
  induction n with
  | zero => omega
  | succ m ih =>
    rw [foldl_range_succ]
    by_cases hc : c < m
    · rw [gaussStep_lookup_ne _ (by omega), ih hc]
    · have hcm : c = m := by omega
      subst hcm
      rw [gaussStep_lookup_means_self, gaussFold_ge (le_refl c)]

theorem gaussFold_stddevs {ns : Int} {seed : Option Int} {d : OutDict} {n c : Nat}
    (h : c < n) :
    dlookup ((List.range n).foldl (gaussStep ns seed) d) (add_pref OutKey.stddevs c) =
      some (eluP1T (dget d (add_pref OutKey.stddevs c))) := by
  induction n with
  | zero => omega
  | succ m ih =>
    rw [foldl_range_succ]
    by_cases hc : c < m
    · rw [gaussStep_lookup_ne _ (by omega), ih hc]
    · have hcm : c = m := by omega
      subst hcm
      rw [gaussStep_lookup_stddevs_self]
      unfold dget
      rw [gaussFold_ge (le_refl c)]

theorem gaussFold_samples {ns : Int} {seed : Option Int} {d : OutDict} {n c : Nat}
    (hns : 0 < ns) (h : c < n) :
    dlookup ((List.range n).foldl (gaussStep ns seed) d) (add_pref OutKey.samples c) =
      some (sampleT (dget d (add_pref OutKey.means c))
        (eluP1T (dget d (add_pref OutKey.stddevs c))) ns seed) := by
  induction n with
  | zero => omega
  | succ m ih =>
    rw [foldl_range_succ]
    by_cases hc : c < m
    · rw [gaussStep_lookup_ne _ (by omega), ih hc]
    · have hcm : c = m := by omega
      subst hcm
      rw [gaussStep_lookup_samples_self hns]
      unfold dget
      rw [gaussFold_ge (le_refl c), gaussFold_ge (le_refl c)]

/-! ### `occurs` evaluated on each graph constructor -/

theorem occurs_input (hit : Tensor → Bool) (s : String) :
    occurs hit (Tensor.input s) = hit (Tensor.input s) := by
  rw [occurs_eq]
  simp [children]

theorem occurs_var (hit : Tensor → Bool) (s : String) (sh : List Nat) :
    occurs hit (Tensor.var s sh) = hit (Tensor.var s sh) := by
  rw [occurs_eq]
  simp [children]

theorem occurs_clip (hit : Tensor → Bool) (t : Tensor) (r : Rat) :
    occurs hit (Tensor.clip_by_norm t r) =
      (hit (Tensor.clip_by_norm t r) || occurs hit t) := by
  rw [occurs_eq]
  simp [children]

theorem occurs_matmul (hit : Tensor → Bool) (a b : Tensor) :
    occurs hit (Tensor.matmul a b) =
      (hit (Tensor.matmul a b) || (occurs hit a || occurs hit b)) := by
  rw [occurs_eq]
  simp [children]

theorem occurs_add (hit : Tensor → Bool) (a b : Tensor) :
    occurs hit (Tensor.add a b) =
      (hit (Tensor.add a b) || (occurs hit a || occurs hit b)) := by
  rw [occurs_eq]
  simp [children]

theorem occurs_add_const (hit : Tensor → Bool) (t : Tensor) (r : Rat) :
    occurs hit (Tensor.add_const t r) =
      (hit (Tensor.add_const t r) || occurs hit t) := by
  rw [occurs_eq]
  simp [children]

theorem occurs_batch_norm (hit : Tensor → Bool) (t : Tensor) (b : Bool) (s : String) :
    occurs hit (Tensor.batch_norm t b s) =
      (hit (Tensor.batch_norm t b s) || occurs hit t) := by
  rw [occurs_eq]
  simp [children]

theorem occurs_relu (hit : Tensor → Bool) (t : Tensor) (s : String) :
    occurs hit (Tensor.relu t s) = (hit (Tensor.relu t s) || occurs hit t) := by
  rw [occurs_eq]
  simp [children]

theorem occurs_dropout (hit : Tensor → Bool) (t : Tensor) (r : Rat) (s : String) :
    occurs hit (Tensor.dropout t r s) =
      (hit (Tensor.dropout t r s) || occurs hit t) := by
  rw [occurs_eq]
  simp [children]

theorem occurs_elu (hit : Tensor → Bool) (t : Tensor) :
    occurs hit (Tensor.elu t) = (hit (Tensor.elu t) || occurs hit t) := by
  rw [occurs_eq]
  simp [children]

theorem occurs_sample (hit : Tensor → Bool) (a b : Tensor) (n : Int) (s : Option Int) :
    occurs hit (Tensor.sample_gaussians a b n s) =
      (hit (Tensor.sample_gaussians a b n s) || (occurs hit a || occurs hit b)) := by
  rw [occurs_eq]
  simp [children]

theorem occurs_stack (hit : Tensor → Bool) (ts : List Tensor) (ax : Int) :
    occurs hit (Tensor.stack ts ax) =
      (hit (Tensor.stack ts ax) || ts.any (occurs hit)) := by
  rw [occurs_eq]
  simp [children]

theorem occurs_unstack (hit : Tensor → Bool) (t : Tensor) (ax : Int) (i : Nat) :
    occurs hit (Tensor.unstack_at t ax i) =
      (hit (Tensor.unstack_at t ax i) || occurs hit t) := by
  rw [occurs_eq]
  simp [children]

/-! ### Shape lemmas -/

theorem bcastR_nil (s : List Nat) : bcastR s [] = s := by
  cases s <;> rfl

theorem bcastR_self (s : List Nat) : bcastR s s = s := by
  induction s with
  | nil => rfl
  | cons a l ih => simp [bcastR, ih]

theorem bcast_self (s : List Nat) : bcast s s = s := by
  simp [bcast, bcastR_self]

theorem bcast_concat (l : List Nat) (o : Nat) : bcast (l ++ [o]) [o] = l ++ [o] := by
  simp [bcast, List.reverse_append, bcastR, bcastR_nil]

theorem shape_linear (x : Ten) (o : Nat) (w : Rat) (nm : String) :
    (_linear x o w nm).shape = x.shape.dropLast ++ [o] := by
  by_cases h : 0 < w <;> simp [_linear, h, addT, matmulT, bcast_concat]

theorem shape_fc (kw : Kw) (x : Ten) (tr : Bool) (nm : String) :
    (fully_connected kw x tr nm).shape = x.shape.dropLast ++ [kw.num_hidden_nodes] := by
  simp only [fully_connected]
  split_ifs <;> simp [shape_linear]

theorem shape_fc_fold (kw : Kw) (tr : Bool) (g : Nat → String) (D : List Nat) :
    ∀ (l : List Nat) (x : Ten), x.shape = D ++ [kw.num_hidden_nodes] →
      ((l.foldl (fun net i => fully_connected kw net tr (g i)) x).shape =
        D ++ [kw.num_hidden_nodes]) := by
  intro l
  induction l with
  | nil => intro x hx; exact hx
  | cons a l ih =>
    intro x hx
    rw [List.foldl_cons]
    exact ih _ (by rw [shape_fc, hx, List.dropLast_concat])

theorem shape_block (kw : Kw) (x : Ten) (tr : Bool) (nm : String) (D : List Nat)
    (h : x.shape = D ++ [kw.num_hidden_nodes]) :
    (fully_connected_block kw x tr nm).shape = D ++ [kw.num_hidden_nodes] := by
  unfold fully_connected_block
  have hc := shape_fc_fold kw tr (fun i => nm ++ "/FC_" ++ toString i) D
    (List.range kw.num_fcs_per_block) x h
  simp [addT, hc, h, bcast_self]

theorem shape_block_fold (kw : Kw) (tr : Bool) (g : Nat → String) (D : List Nat) :
    ∀ (l : List Nat) (x : Ten), x.shape = D ++ [kw.num_hidden_nodes] →
      ((l.foldl (fun net i => fully_connected_block kw net tr (g i)) x).shape =
        D ++ [kw.num_hidden_nodes]) := by
  intro l
  induction l with
  | nil => intro x hx; exact hx
  | cons a l ih =>
    intro x hx
    rw [List.foldl_cons]
    exact ih _ (shape_block kw x tr (g a) D hx)

theorem shape_base (kw : Kw) (x : Ten) (tr : Bool) :
    (simple_base kw x tr).shape = x.shape.dropLast ++ [kw.num_hidden_nodes] := by
  unfold simple_base
  exact shape_block_fold kw tr _ x.shape.dropLast _ _ (shape_fc kw x tr _)

theorem insertAt_length_append (l r : List Nat) (v : Nat) :
    insertAt l.length v (l ++ r) = l ++ v :: r := by
  induction l with
  | nil => rfl
  | cons a l ih => simp [insertAt, ih]

theorem normAxis_neg2 (m : Nat) : normAxis (-2) (m + 2) = m := by
  simp [normAxis]

theorem normAxis_neg3 (m : Nat) : normAxis (-3) (m + 3) = m := by
  simp [normAxis]

theorem normAxis_one (r : Nat) : normAxis 1 r = 1 := by
  simp [normAxis]

/-! ### Explicit sequential-composition chains (for the residual-block claim) -/

/-- The sequential composition of `n` fully-connected layers
`name/FC_0, ..., name/FC_{n-1}` applied to `x`, written as explicit
iterated application. -/
def fcChain (kw : Kw) (x : Ten) (tr : Bool) (nm : String) : Nat → Ten
  | 0 => x
  | k + 1 => fully_connected kw (fcChain kw x tr nm k) tr (nm ++ "/FC_" ++ toString k)

/-- The sequential composition of `n` residual fully-connected blocks
`FullyConnectedBlock_0, ..., FullyConnectedBlock_{n-1}` applied to `x`. -/
def blockChain (kw : Kw) (x : Ten) (tr : Bool) : Nat → Ten
  | 0 => x
  | k + 1 => fully_connected_block kw (blockChain kw x tr k) tr
      (kw.name ++ "/FullyConnectedBlock_" ++ toString k)

theorem fcChain_eq_fold (kw : Kw) (x : Ten) (tr : Bool) (nm : String) (n : Nat) :
    (List.range n).foldl
      (fun net i => fully_connected kw net tr (nm ++ "/FC_" ++ toString i)) x =
      fcChain kw x tr nm n := by
  induction n with
  | zero => rfl
  | succ m ih => rw [foldl_range_succ, ih]; rfl

theorem blockChain_eq_fold (kw : Kw) (x : Ten) (tr : Bool) (n : Nat) :
    (List.range n).foldl
      (fun net i =>
        fully_connected_block kw net tr
          (kw.name ++ "/FullyConnectedBlock_" ++ toString i)) x =
      blockChain kw x tr n := by
  induction n with
  | zero => rfl
  | succ m ih => rw [foldl_range_succ, ih]; rfl

/-! ### Occurrence of sampling nodes in the point-embedder graphs -/

theorem bool_absorb (a b q : Bool) : ((a || b) || (q && b)) = (a || b) := by
  cases a <;> cases b <;> cases q <;> rfl

theorem bool_absorb2 (a b : Bool) : ((a || b) || a) = (a || b) := by
  cases a <;> cases b <;> rfl

theorem bool_absorb3 (a b q p : Bool) : ((a || b) || (q && (p && b))) = (a || b) := by
  cases a <;> cases b <;> cases q <;> cases p <;> rfl

theorem occS_linear (x : Ten) (o : Nat) (w : Rat) (nm : String) :
    occurs isSampleNode (_linear x o w nm).g = occurs isSampleNode x.g := by
  by_cases h : 0 < w <;>
    simp [_linear, h, addT, matmulT, occurs_add, occurs_matmul, occurs_var,
      occurs_clip, isSampleNode]

theorem occS_fc (kw : Kw) (x : Ten) (tr : Bool) (nm : String) :
    occurs isSampleNode (fully_connected kw x tr nm).g = occurs isSampleNode x.g := by
  simp only [fully_connected]
  split_ifs <;>
    simp [occurs_dropout, occurs_relu, occurs_batch_norm, isSampleNode, occS_linear]

theorem occS_fc_fold (kw : Kw) (tr : Bool) (g : Nat → String) :
    ∀ (l : List Nat) (x : Ten),
      occurs isSampleNode
        ((l.foldl (fun net i => fully_connected kw net tr (g i)) x)).g =
        occurs isSampleNode x.g := by
  intro l
  induction l with
  | nil => intro x; rfl
  | cons a l ih =>
    intro x
    rw [List.foldl_cons, ih, occS_fc]

theorem occS_block (kw : Kw) (x : Ten) (tr : Bool) (nm : String) :
    occurs isSampleNode (fully_connected_block kw x tr nm).g =
      occurs isSampleNode x.g := by
  unfold fully_connected_block
  simp [addT, occurs_add, isSampleNode, occS_fc_fold]

theorem occS_block_fold (kw : Kw) (tr : Bool) (g : Nat → String) :
    ∀ (l : List Nat) (x : Ten),
      occurs isSampleNode
        ((l.foldl (fun net i => fully_connected_block kw net tr (g i)) x)).g =
        occurs isSampleNode x.g := by
  intro l
  induction l with
  | nil => intro x; rfl
  | cons a l ih =>
    intro x
    rw [List.foldl_cons, ih, occS_block]

theorem occS_base (kw : Kw) (x : Ten) (tr : Bool) :
    occurs isSampleNode (simple_base kw x tr).g = occurs isSampleNode x.g := by
  unfold simple_base
  rw [occS_block_fold, occS_fc]

/-! ### Occurrence of dropout nodes -/

theorem occD_linear (x : Ten) (o : Nat) (w : Rat) (nm : String) :
    occurs isDropoutNode (_linear x o w nm).g = occurs isDropoutNode x.g := by
  by_cases h : 0 < w <;>
    simp [_linear, h, addT, matmulT, occurs_add, occurs_matmul, occurs_var,
      occurs_clip, isDropoutNode]

theorem occD_fc (kw : Kw) (x : Ten) (tr : Bool) (nm : String) :
    occurs isDropoutNode (fully_connected kw x tr nm).g =
      (occurs isDropoutNode x.g || (tr && decide (0 < kw.dropout_rate))) := by
  cases tr <;> by_cases hb : kw.use_batch_norm <;> by_cases hr : 0 < kw.dropout_rate <;>
    simp [fully_connected, hb, hr, occurs_dropout, occurs_relu, occurs_batch_norm,
      isDropoutNode, occD_linear]

theorem occD_fc_fold (kw : Kw) (tr : Bool) (g : Nat → String) :
    ∀ (l : List Nat) (x : Ten),
      occurs isDropoutNode
        ((l.foldl (fun net i => fully_connected kw net tr (g i)) x)).g =
        (occurs isDropoutNode x.g ||
          (!l.isEmpty && (tr && decide (0 < kw.dropout_rate)))) := by
  intro l
  induction l with
  | nil => intro x; simp
  | cons a l ih =>
    intro x
    rw [List.foldl_cons, ih, occD_fc]
    simp [bool_absorb]

theorem occD_block (kw : Kw) (x : Ten) (tr : Bool) (nm : String) :
    occurs isDropoutNode (fully_connected_block kw x tr nm).g =
      (occurs isDropoutNode x.g ||
        (!(List.range kw.num_fcs_per_block).isEmpty &&
          (tr && decide (0 < kw.dropout_rate)))) := by
  unfold fully_connected_block
  simp [addT, occurs_add, isDropoutNode, occD_fc_fold, bool_absorb2]

theorem occD_block_fold (kw : Kw) (tr : Bool) (g : Nat → String) :
    ∀ (l : List Nat) (x : Ten),
      occurs isDropoutNode
        ((l.foldl (fun net i => fully_connected_block kw net tr (g i)) x)).g =
        (occurs isDropoutNode x.g ||
          (!l.isEmpty && (!(List.range kw.num_fcs_per_block).isEmpty &&
            (tr && decide (0 < kw.dropout_rate))))) := by
  intro l
  induction l with
  | nil => intro x; simp
  | cons a l ih =>
    intro x
    rw [List.foldl_cons, ih, occD_block]
    simp [bool_absorb]

theorem occD_base (kw : Kw) (x : Ten) (tr : Bool) :
    occurs isDropoutNode (simple_base kw x tr).g =
      (occurs isDropoutNode x.g || (tr && decide (0 < kw.dropout_rate))) := by
  unfold simple_base
  rw [occD_block_fold, occD_fc]
  exact bool_absorb3 _ _ _ _

/-! ### Occurrence of weight-clipping nodes in `_linear` -/

theorem occC_linear (x : Ten) (o : Nat) (w : Rat) (nm : String) :
    occurs isClipNode (_linear x o w nm).g =
      (decide (0 < w) || occurs isClipNode x.g) := by
  by_cases h : 0 < w <;>
    simp [_linear, h, addT, matmulT, occurs_add, occurs_matmul, occurs_var,
      occurs_clip, isClipNode]

/-! ### Dropout-rate irrelevance at inference time -/

theorem fc_inference_rate_irrel (kw : Kw) (r r' : Rat) (x : Ten) (nm : String) :
    fully_connected {kw with dropout_rate := r} x false nm =
      fully_connected {kw with dropout_rate := r'} x false nm := by
  simp [fully_connected]

theorem foldl_congr_fn {α β : Type} (f g : α → β → α) (l : List β) (x : α)
    (h : ∀ a b, f a b = g a b) : l.foldl f x = l.foldl g x := by
  have hfg : f = g := funext fun a => funext fun b => h a b
  rw [hfg]

theorem block_inference_rate_irrel (kw : Kw) (r r' : Rat) (x : Ten) (nm : String) :
    fully_connected_block {kw with dropout_rate := r} x false nm =
      fully_connected_block {kw with dropout_rate := r'} x false nm := by
  unfold fully_connected_block
  rw [foldl_congr_fn _
    (fun net i =>
      fully_connected {kw with dropout_rate := r'} net false (nm ++ "/FC_" ++ toString i))
    _ _ (fun net i => fc_inference_rate_irrel kw r r' net _)]

theorem base_inference_rate_irrel (kw : Kw) (r r' : Rat) (x : Ten) :
    simple_base {kw with dropout_rate := r} x false =
      simple_base {kw with dropout_rate := r'} x false := by
  unfold simple_base
  rw [fc_inference_rate_irrel kw r r' x _]
  exact foldl_congr_fn _ _ _ _
    (fun net i => block_inference_rate_irrel kw r r' net _)

/-! ### The output heads of `simple_model` -/

/-- The tensor feeding the output heads of `simple_model`: the
bottleneck activations when `num_bottleneck_nodes > 0`, otherwise the
base activations. -/
def smNet (kw : Kw) (x : Ten) (tr : Bool) : Ten :=
  if 0 < kw.num_bottleneck_nodes then
    _linear (simple_base kw x tr) kw.num_bottleneck_nodes.toNat kw.weight_max_norm
      (kw.name ++ "/BottleneckLogits")
  else simple_base kw x tr

theorem simple_model_outputs (kw : Kw) (x : Ten) (sizes : List (OutKey × Nat))
    (tr : Bool) :
    (simple_model kw x sizes tr).1 = sizes.map (fun p =>
      (p.1, _linear (smNet kw x tr) p.2 kw.weight_max_norm
        (kw.name ++ "/OutputLogits/" ++ keyName p.1))) := by
  by_cases h : 0 < kw.num_bottleneck_nodes <;> simp [simple_model, smNet, h]

theorem simple_model_acts (kw : Kw) (x : Ten) (sizes : List (OutKey × Nat))
    (tr : Bool) :
    (simple_model kw x sizes tr).2 =
      (if 0 < kw.num_bottleneck_nodes then
        [("base_activations", simple_base kw x tr),
         ("bottleneck_activations",
           _linear (simple_base kw x tr) kw.num_bottleneck_nodes.toNat
             kw.weight_max_norm (kw.name ++ "/BottleneckLogits"))]
      else [("base_activations", simple_base kw x tr)]) := by
  by_cases h : 0 < kw.num_bottleneck_nodes <;> simp [simple_model, h]

theorem smNet_dropLast (kw : Kw) (x : Ten) (tr : Bool) :
    (smNet kw x tr).shape.dropLast = x.shape.dropLast := by
  by_cases h : 0 < kw.num_bottleneck_nodes <;>
    simp [smNet, h, shape_linear, shape_base, List.dropLast_concat]

theorem occS_smNet (kw : Kw) (x : Ten) (tr : Bool) :
    occurs isSampleNode (smNet kw x tr).g = occurs isSampleNode x.g := by
  by_cases h : 0 < kw.num_bottleneck_nodes <;>
    simp [smNet, h, occS_linear, occS_base]

theorem point_head (kw : Kw) (x : Ten) (tr : Bool) {n c : Nat} (e : Nat)
    (hc : c < n) :
    dget (simple_model kw x (pointSizes n e) tr).1 (add_pref OutKey.means c) =
      _linear (smNet kw x tr) e kw.weight_max_norm
        (kw.name ++ "/OutputLogits/" ++ keyName (add_pref OutKey.means c)) := by
  rw [simple_model_outputs]
  unfold dget
  rw [dlookup_map_keyed, find?_pointSizes e hc]
  rfl

theorem gauss_head_means (kw : Kw) (x : Ten) (tr : Bool) {n c : Nat} (e : Nat)
    (hc : c < n) :
    dget (simple_model kw x (gaussSizes n e) tr).1 (add_pref OutKey.means c) =
      _linear (smNet kw x tr) e kw.weight_max_norm
        (kw.name ++ "/OutputLogits/" ++ keyName (add_pref OutKey.means c)) := by
  rw [simple_model_outputs]
  unfold dget
  rw [dlookup_map_keyed, find?_gaussSizes_means e hc]
  rfl

theorem gauss_head_stddevs (kw : Kw) (x : Ten) (tr : Bool) {n c : Nat} (e : Nat)
    (hc : c < n) :
    dget (simple_model kw x (gaussSizes n e) tr).1 (add_pref OutKey.stddevs c) =
      _linear (smNet kw x tr) e kw.weight_max_norm
        (kw.name ++ "/OutputLogits/" ++ keyName (add_pref OutKey.stddevs c)) := by
  rw [simple_model_outputs]
  unfold dget
  rw [dlookup_map_keyed, find?_gaussSizes_stddevs e hc]
  rfl

/-! ### Stack shapes -/

theorem stackT_shape_neg2 (ts : List Ten) (D : List Nat) (eN : Nat)
    (h0 : ts.head?.map Ten.shape = some (D ++ [eN])) :
    (stackT ts (-2)).shape = D ++ [ts.length, eN] := by
  simp only [stackT, h0, Option.getD_some]
  rw [show (D ++ [eN]).length + 1 = D.length + 2 by simp, normAxis_neg2]
  exact insertAt_length_append D [eN] ts.length

theorem stackT_shape_neg3 (ts : List Ten) (D : List Nat) (a b : Nat)
    (h0 : ts.head?.map Ten.shape = some (D ++ [a, b])) :
    (stackT ts (-3)).shape = D ++ [ts.length, a, b] := by
  simp only [stackT, h0, Option.getD_some]
  rw [show (D ++ [a, b]).length + 1 = D.length + 3 by simp, normAxis_neg3]
  exact insertAt_length_append D [a, b] ts.length

theorem head?_range_map {α : Type} (f : Nat → α) (m : Nat) :
    ((List.range (m + 1)).map f).head? = some (f 0) := by
  rw [List.range_succ_eq_map]
  simp

/-! ### The entries of the Gaussian embedder's outputs dictionary -/

theorem sge_means_entry (kw : Kw) (x : Ten) (n e : Nat) (ns : Int) (tr : Bool)
    (sd : Option Int) :
    dlookup (simple_gaussian_embedder kw x n e ns tr sd).1 OutKey.means =
      some (stackT ((List.range n).map (fun c =>
        dget (simple_model kw x (gaussSizes n e) tr).1 (add_pref OutKey.means c)))
        (-2)) := by
  have hA : (List.range n).map (fun c =>
      dget ((List.range n).foldl (gaussStep ns sd)
        (simple_model kw x (gaussSizes n e) tr).1) (add_pref OutKey.means c)) =
      (List.range n).map (fun c =>
        dget (simple_model kw x (gaussSizes n e) tr).1 (add_pref OutKey.means c)) :=
    List.map_congr_left (fun c hc => by
      unfold dget
      rw [gaussFold_means (List.mem_range.mp hc)])
  by_cases hns : 0 < ns <;>
    simp [simple_gaussian_embedder, hns, dlookup_cons, hA]

theorem sge_stddevs_entry (kw : Kw) (x : Ten) (n e : Nat) (ns : Int) (tr : Bool)
    (sd : Option Int) :
    dlookup (simple_gaussian_embedder kw x n e ns tr sd).1 OutKey.stddevs =
      some (stackT ((List.range n).map (fun c =>
        eluP1T (dget (simple_model kw x (gaussSizes n e) tr).1
          (add_pref OutKey.stddevs c)))) (-2)) := by
  have hB : (List.range n).map (fun c =>
      dget ((List.range n).foldl (gaussStep ns sd)
        (simple_model kw x (gaussSizes n e) tr).1) (add_pref OutKey.stddevs c)) =
      (List.range n).map (fun c =>
        eluP1T (dget (simple_model kw x (gaussSizes n e) tr).1
          (add_pref OutKey.stddevs c))) :=
    List.map_congr_left (fun c hc => by
      unfold dget
      rw [gaussFold_stddevs (List.mem_range.mp hc)]
      rfl)
  by_cases hns : 0 < ns <;>
    simp [simple_gaussian_embedder, hns, dlookup_cons, hB]

theorem sge_samples_entry (kw : Kw) (x : Ten) (n e : Nat) {ns : Int} (tr : Bool)
    (sd : Option Int) (hns : 0 < ns) :
    dlookup (simple_gaussian_embedder kw x n e ns tr sd).1 OutKey.samples =
      some (stackT ((List.range n).map (fun c =>
        sampleT (dget (simple_model kw x (gaussSizes n e) tr).1 (add_pref OutKey.means c))
          (eluP1T (dget (simple_model kw x (gaussSizes n e) tr).1
            (add_pref OutKey.stddevs c))) ns sd)) (-3)) := by
  have hC : (List.range n).map (fun c =>
      dget ((List.range n).foldl (gaussStep ns sd)
        (simple_model kw x (gaussSizes n e) tr).1) (add_pref OutKey.samples c)) =
      (List.range n).map (fun c =>
        sampleT (dget (simple_model kw x (gaussSizes n e) tr).1 (add_pref OutKey.means c))
          (eluP1T (dget (simple_model kw x (gaussSizes n e) tr).1
            (add_pref OutKey.stddevs c))) ns sd) :=
    List.map_congr_left (fun c hc => by
      unfold dget
      rw [gaussFold_samples hns (List.mem_range.mp hc)]
      rfl)
  simp [simple_gaussian_embedder, hns, dlookup_cons, hC]

theorem sge_samples_none (kw : Kw) (x : Ten) (n e : Nat) {ns : Int} (tr : Bool)
    (sd : Option Int) (hns : ¬0 < ns) :
    dlookup (simple_gaussian_embedder kw x n e ns tr sd).1 OutKey.samples = none := by
  simp [simple_gaussian_embedder, hns, dlookup_cons]
  rfl

theorem sge_outputs_nonpos (kw : Kw) (x : Ten) (n e : Nat) {ns : Int} (tr : Bool)
    (sd : Option Int) (hns : ¬0 < ns) :
    (simple_gaussian_embedder kw x n e ns tr sd).1 =
      [(OutKey.means,
         stackT ((List.range n).map (fun c =>
           dget (simple_model kw x (gaussSizes n e) tr).1 (add_pref OutKey.means c)))
           (-2)),
       (OutKey.stddevs,
         stackT ((List.range n).map (fun c =>
           eluP1T (dget (simple_model kw x (gaussSizes n e) tr).1
             (add_pref OutKey.stddevs c)))) (-2))] := by
  have hA : (List.range n).map (fun c =>
      dget ((List.range n).foldl (gaussStep ns sd)
        (simple_model kw x (gaussSizes n e) tr).1) (add_pref OutKey.means c)) =
      (List.range n).map (fun c =>
        dget (simple_model kw x (gaussSizes n e) tr).1 (add_pref OutKey.means c)) :=
    List.map_congr_left (fun c hc => by
      unfold dget
      rw [gaussFold_means (List.mem_range.mp hc)])
  have hB : (List.range n).map (fun c =>
      dget ((List.range n).foldl (gaussStep ns sd)
        (simple_model kw x (gaussSizes n e) tr).1) (add_pref OutKey.stddevs c)) =
      (List.range n).map (fun c =>
        eluP1T (dget (simple_model kw x (gaussSizes n e) tr).1
          (add_pref OutKey.stddevs c))) :=
    List.map_congr_left (fun c hc => by
      unfold dget
      rw [gaussFold_stddevs (List.mem_range.mp hc)]
      rfl)
  simp [simple_gaussian_embedder, hns, hA, hB]

/-! ### Spec-side definition for the rank-3 refinement claim -/

/-- Following the claim's words: the rank-3 embedding is obtained by
applying the per-instance embedder `f` separately to each rank-2
instance slice (the slices `tf.unstack` produces along axis 1) and
stacking the per-instance results along axis 1, key by key. -/
def mapped_embed (f : Ten → OutDict × ActDict) (x : Ten) (m : Nat) :
    OutDict × ActDict :=
  let subs := (List.range m).map (fun i => f (unstackAtT x 1 i))
  let d0 := subs.head?.getD ([], [])
  (d0.1.map (fun p => (p.1, stackT (subs.map (fun s => dget s.1 p.1)) 1)),
   d0.2.map (fun p => (p.1, stackT (subs.map (fun s => dget s.2 p.1)) 1)))

/-! ### The ELU nonlinearity over the reals -/

open Classical in
/-- Modelled from the spec: `tf.nn.elu` is a framework primitive (not
code of this repository); its real-valued semantics is
`elu(x) = x` for `x > 0` and `exp(x) - 1` otherwise. -/
noncomputable def elu (x : ℝ) : ℝ :=
  if 0 < x then x else Real.exp x - 1

theorem elu_add_one_pos (x : ℝ) : 0 < elu x + 1 := by
  unfold elu
  split_ifs with h
  · linarith
  · have hexp := Real.exp_pos x
    linarith

/-! ## The claims -/

/-- C1: every residual fully-connected block of `simple_base` computes
the sequential composition of `num_fcs_per_block` (default 2)
fully-connected layers applied to the block's input and then adds the
block's input tensor to that result (residual skip connection), and
`simple_base` applies one input fully-connected layer followed by
`num_fc_blocks` (default 2) such blocks in order. -/
theorem claim_C1_residual_block_structure (kw : Kw) (x : Ten) (tr : Bool) (nm : String) :
    fully_connected_block kw x tr nm =
      addT (fcChain kw x tr nm kw.num_fcs_per_block) x
    ∧ (∀ k : Nat, fcChain kw x tr nm (k + 1) =
        fully_connected kw (fcChain kw x tr nm k) tr (nm ++ "/FC_" ++ toString k))
    ∧ simple_base kw x tr =
        blockChain kw (fully_connected kw x tr (kw.name ++ "/InputFC")) tr
          kw.num_fc_blocks
    ∧ (∀ k : Nat, blockChain kw x tr (k + 1) =
        fully_connected_block kw (blockChain kw x tr k) tr
          (kw.name ++ "/FullyConnectedBlock_" ++ toString k))
    ∧ ({} : Kw).num_fcs_per_block = 2 ∧ ({} : Kw).num_fc_blocks = 2 := by
  refine ⟨?_, fun k => rfl, ?_, fun k => rfl, rfl, rfl⟩
  · unfold fully_connected_block
    rw [fcChain_eq_fold]
  · unfold simple_base
    rw [blockChain_eq_fold]

/-- C4: `_linear` clips the weight matrix to norm `weight_max_norm`
before the matrix multiply iff `weight_max_norm > 0`; for non-positive
`weight_max_norm` the weights are used unclipped; in both cases the
result is `input_features` times the (possibly clipped) weights plus
the bias. -/
theorem claim_C4_linear_weight_clipping (x : Ten) (o : Nat) (w : Rat) (nm : String) :
    (0 < w →
      _linear x o w nm =
        addT (matmulT x
          ⟨Tensor.clip_by_norm
            (Tensor.var (nm ++ "/weight") [x.shape.getLast?.getD 0, o]) w,
            [x.shape.getLast?.getD 0, o]⟩)
          ⟨Tensor.var (nm ++ "/bias") [o], [o]⟩)
    ∧ (w ≤ 0 →
      _linear x o w nm =
        addT (matmulT x
          ⟨Tensor.var (nm ++ "/weight") [x.shape.getLast?.getD 0, o],
            [x.shape.getLast?.getD 0, o]⟩)
          ⟨Tensor.var (nm ++ "/bias") [o], [o]⟩)
    ∧ (occurs isClipNode x.g = false →
        (occurs isClipNode (_linear x o w nm).g = true ↔ 0 < w)) := by
  refine ⟨fun h => ?_, fun h => ?_, fun hx => ?_⟩
  · simp [_linear, h]
  · simp [_linear, not_lt.mpr h]
  · rw [occC_linear, hx]
    simp

theorem claim_C4_witness :
    _linear ⟨Tensor.input "x", [8, 16]⟩ 4 2 "L" =
      addT (matmulT ⟨Tensor.input "x", [8, 16]⟩
        ⟨Tensor.clip_by_norm (Tensor.var ("L" ++ "/weight") [16, 4]) 2, [16, 4]⟩)
        ⟨Tensor.var ("L" ++ "/bias") [4], [4]⟩
    ∧ (occurs isClipNode (_linear ⟨Tensor.input "x", [8, 16]⟩ 4 0 "L").g = true ↔
        (0 : Rat) < 0) := by
  constructor
  · exact (claim_C4_linear_weight_clipping ⟨Tensor.input "x", [8, 16]⟩ 4 2 "L").1
      (by norm_num)
  · exact (claim_C4_linear_weight_clipping ⟨Tensor.input "x", [8, 16]⟩ 4 0 "L").2.2
      (by simp [occurs_input, isClipNode])

/-- C7: `simple_model` inserts a bottleneck linear layer between the
base network and the output heads iff `num_bottleneck_nodes > 0`;
exactly in that case the activations dictionary contains
`'bottleneck_activations'` (besides the always-present
`'base_activations'`) and the output heads consume the bottleneck
activations; otherwise they consume the base activations directly. -/
theorem claim_C7_bottleneck_iff (kw : Kw) (x : Ten) (sizes : List (OutKey × Nat))
    (tr : Bool) :
    ((dlookup (simple_model kw x sizes tr).2 "bottleneck_activations").isSome = true ↔
      0 < kw.num_bottleneck_nodes)
    ∧ dlookup (simple_model kw x sizes tr).2 "base_activations" =
        some (simple_base kw x tr)
    ∧ (0 < kw.num_bottleneck_nodes →
        dlookup (simple_model kw x sizes tr).2 "bottleneck_activations" =
          some (_linear (simple_base kw x tr) kw.num_bottleneck_nodes.toNat
            kw.weight_max_norm (kw.name ++ "/BottleneckLogits"))
        ∧ (simple_model kw x sizes tr).1 = sizes.map (fun p =>
            (p.1, _linear
              (_linear (simple_base kw x tr) kw.num_bottleneck_nodes.toNat
                kw.weight_max_norm (kw.name ++ "/BottleneckLogits"))
              p.2 kw.weight_max_norm (kw.name ++ "/OutputLogits/" ++ keyName p.1))))
    ∧ (kw.num_bottleneck_nodes ≤ 0 →
        dlookup (simple_model kw x sizes tr).2 "bottleneck_activations" = none
        ∧ (simple_model kw x sizes tr).1 = sizes.map (fun p =>
            (p.1, _linear (simple_base kw x tr) p.2 kw.weight_max_norm
              (kw.name ++ "/OutputLogits/" ++ keyName p.1)))) := by
  have hne : ("base_activations" : String) ≠ "bottleneck_activations" := by decide
  by_cases h : 0 < kw.num_bottleneck_nodes
  · refine ⟨?_, ?_, fun _ => ⟨?_, ?_⟩, fun hle => absurd h (by omega)⟩
    · rw [simple_model_acts]
      simp [h, dlookup_cons, hne]
    · rw [simple_model_acts]
      simp [h, dlookup_cons]
    · rw [simple_model_acts]
      simp [h, dlookup_cons, hne]
    · rw [simple_model_outputs]
      simp [smNet, h]
  · refine ⟨?_, ?_, fun hgt => absurd hgt h, fun _ => ⟨?_, ?_⟩⟩
    · rw [simple_model_acts]
      simp [h, dlookup_cons, hne]
      rfl
    · rw [simple_model_acts]
      simp [h, dlookup_cons]
    · rw [simple_model_acts]
      simp [h, dlookup_cons, hne]
      rfl
    · rw [simple_model_outputs]
      simp [smNet, h]

theorem claim_C7_witness :
    (dlookup (simple_model {num_bottleneck_nodes := 16} ⟨Tensor.input "x", [2, 3]⟩
      [] false).2 "bottleneck_activations").isSome = true
    ∧ dlookup (simple_model {} ⟨Tensor.input "x", [2, 3]⟩ [] false).2
        "bottleneck_activations" = none := by
  constructor
  · rw [((claim_C7_bottleneck_iff {num_bottleneck_nodes := 16}
      ⟨Tensor.input "x", [2, 3]⟩ [] false).2.2.1 (by decide)).1]
    rfl
  · exact ((claim_C7_bottleneck_iff {} ⟨Tensor.input "x", [2, 3]⟩ [] false).2.2.2
      (by decide)).1

/-- C5: for every `num_embedding_components >= 1`,
`simple_point_embedder` returns an outputs dictionary whose
`KEY_EMBEDDING_MEANS` entry is the stack, along axis `-2` in component
index order `0 .. n-1`, of the per-component mean head tensors produced
by `simple_model` under the keys `'C0/...' .. 'C{n-1}/...'`, with shape
`[..., num_embedding_components, embedding_size]`. -/
theorem claim_C5_point_embedder_means (kw : Kw) (x : Ten) (n e : Nat) (tr : Bool)
    (hn : 1 ≤ n) :
    (simple_point_embedder kw x n e tr).1 =
      [(OutKey.means,
         stackT ((List.range n).map (fun c =>
           dget (simple_model kw x (pointSizes n e) tr).1 (add_pref OutKey.means c)))
           (-2))]
    ∧ (∀ c, c < n →
        dget (simple_model kw x (pointSizes n e) tr).1 (add_pref OutKey.means c) =
          _linear (smNet kw x tr) e kw.weight_max_norm
            (kw.name ++ "/OutputLogits/" ++ keyName (add_pref OutKey.means c)))
    ∧ (dget (simple_point_embedder kw x n e tr).1 OutKey.means).shape =
        x.shape.dropLast ++ [n, e] := by
  refine ⟨rfl, fun c hc => point_head kw x tr e hc, ?_⟩
  obtain ⟨m, rfl⟩ : ∃ m, n = m + 1 := ⟨n - 1, by omega⟩
  have hhead : ((List.range (m + 1)).map (fun c =>
      dget (simple_model kw x (pointSizes (m + 1) e) tr).1
        (add_pref OutKey.means c))).head?.map Ten.shape =
      some (x.shape.dropLast ++ [e]) := by
    rw [head?_range_map]
    simp [point_head kw x tr e (Nat.succ_pos m), shape_linear, smNet_dropLast]
  have h1 : dget (simple_point_embedder kw x (m + 1) e tr).1 OutKey.means =
      stackT ((List.range (m + 1)).map (fun c =>
        dget (simple_model kw x (pointSizes (m + 1) e) tr).1
          (add_pref OutKey.means c))) (-2) := rfl
  rw [h1, stackT_shape_neg2 _ x.shape.dropLast e hhead]
  simp

theorem claim_C5_witness :
    (1 : Nat) ≤ 1
    ∧ (dget (simple_point_embedder {} ⟨Tensor.input "x", [4, 6]⟩ 1 2 false).1
        OutKey.means).shape =
      (⟨Tensor.input "x", [4, 6]⟩ : Ten).shape.dropLast ++ [1, 2] :=
  ⟨le_refl 1,
    (claim_C5_point_embedder_means {} ⟨Tensor.input "x", [4, 6]⟩ 1 2 false
      (le_refl 1)).2.2⟩

/-- C9 (implicit): each per-component stddev tensor returned by
`simple_gaussian_embedder` under `KEY_EMBEDDING_STDDEVS` is the graph
`elu(logits) + 1.0` applied to the component's stddev head, and
`elu(x) + 1 > 0` for every real `x`, so every stddev value is strictly
positive. -/
theorem claim_C9_stddev_elu_positive (kw : Kw) (x : Ten) (n e : Nat) (ns : Int)
    (tr : Bool) (sd : Option Int) :
    dlookup (simple_gaussian_embedder kw x n e ns tr sd).1 OutKey.stddevs =
      some (stackT ((List.range n).map (fun c =>
        eluP1T (dget (simple_model kw x (gaussSizes n e) tr).1
          (add_pref OutKey.stddevs c)))) (-2))
    ∧ (∀ t : Ten, eluP1T t = ⟨Tensor.add_const (Tensor.elu t.g) 1, t.shape⟩)
    ∧ (∀ y : ℝ, 0 < elu y + 1) :=
  ⟨sge_stddevs_entry kw x n e ns tr sd, fun _ => rfl, elu_add_one_pos⟩

/-- C6: `simple_gaussian_embedder` always returns `KEY_EMBEDDING_MEANS`
and `KEY_EMBEDDING_STDDEVS` entries (the per-component tensors stacked
along axis `-2`); its outputs dictionary contains
`KEY_EMBEDDING_SAMPLES` iff `num_embedding_samples > 0`; when present,
the samples are the per-component Gaussian sample tensors stacked along
axis `-3` with shape `[..., num_components, num_samples, dim]`; for
non-positive `num_embedding_samples` the sampling step is skipped
entirely. -/
theorem claim_C6_gaussian_outputs (kw : Kw) (x : Ten) (n e : Nat) (ns : Int)
    (tr : Bool) (sd : Option Int) :
    dlookup (simple_gaussian_embedder kw x n e ns tr sd).1 OutKey.means =
      some (stackT ((List.range n).map (fun c =>
        dget (simple_model kw x (gaussSizes n e) tr).1 (add_pref OutKey.means c)))
        (-2))
    ∧ dlookup (simple_gaussian_embedder kw x n e ns tr sd).1 OutKey.stddevs =
        some (stackT ((List.range n).map (fun c =>
          eluP1T (dget (simple_model kw x (gaussSizes n e) tr).1
            (add_pref OutKey.stddevs c)))) (-2))
    ∧ ((dlookup (simple_gaussian_embedder kw x n e ns tr sd).1 OutKey.samples).isSome =
          true ↔ 0 < ns)
    ∧ (0 < ns →
        dlookup (simple_gaussian_embedder kw x n e ns tr sd).1 OutKey.samples =
          some (stackT ((List.range n).map (fun c =>
            sampleT
              (dget (simple_model kw x (gaussSizes n e) tr).1 (add_pref OutKey.means c))
              (eluP1T (dget (simple_model kw x (gaussSizes n e) tr).1
                (add_pref OutKey.stddevs c))) ns sd)) (-3)))
    ∧ (0 < ns → 1 ≤ n →
        (dget (simple_gaussian_embedder kw x n e ns tr sd).1 OutKey.samples).shape =
          x.shape.dropLast ++ [n, ns.toNat, e])
    ∧ (ns ≤ 0 →
        dlookup (simple_gaussian_embedder kw x n e ns tr sd).1 OutKey.samples = none
        ∧ (simple_gaussian_embedder kw x n e ns tr sd).1 =
          [(OutKey.means,
             stackT ((List.range n).map (fun c =>
               dget (simple_model kw x (gaussSizes n e) tr).1
                 (add_pref OutKey.means c))) (-2)),
           (OutKey.stddevs,
             stackT ((List.range n).map (fun c =>
               eluP1T (dget (simple_model kw x (gaussSizes n e) tr).1
                 (add_pref OutKey.stddevs c)))) (-2))]) := by
  refine ⟨sge_means_entry kw x n e ns tr sd, sge_stddevs_entry kw x n e ns tr sd,
    ?_, fun hns => sge_samples_entry kw x n e tr sd hns, ?_,
    fun hle => ⟨sge_samples_none kw x n e tr sd (by omega),
      sge_outputs_nonpos kw x n e tr sd (by omega)⟩⟩
  · by_cases hns : 0 < ns
    · rw [sge_samples_entry kw x n e tr sd hns]
      simp [hns]
    · rw [sge_samples_none kw x n e tr sd hns]
      simp [hns]
  · intro hns hn
    obtain ⟨m, rfl⟩ : ∃ m, n = m + 1 := ⟨n - 1, by omega⟩
    have hhead : ((List.range (m + 1)).map (fun c =>
        sampleT
          (dget (simple_model kw x (gaussSizes (m + 1) e) tr).1
            (add_pref OutKey.means c))
          (eluP1T (dget (simple_model kw x (gaussSizes (m + 1) e) tr).1
            (add_pref OutKey.stddevs c))) ns sd)).head?.map Ten.shape =
        some (x.shape.dropLast ++ [ns.toNat, e]) := by
      rw [head?_range_map]
      rw [show sampleT
          (dget (simple_model kw x (gaussSizes (m + 1) e) tr).1
            (add_pref OutKey.means 0))
          (eluP1T (dget (simple_model kw x (gaussSizes (m + 1) e) tr).1
            (add_pref OutKey.stddevs 0))) ns sd =
        sampleT
          (_linear (smNet kw x tr) e kw.weight_max_norm
            (kw.name ++ "/OutputLogits/" ++ keyName (add_pref OutKey.means 0)))
          (eluP1T (dget (simple_model kw x (gaussSizes (m + 1) e) tr).1
            (add_pref OutKey.stddevs 0))) ns sd from by
          rw [gauss_head_means kw x tr e (Nat.succ_pos m)]]
      simp [sampleT, shape_linear, smNet_dropLast]
      rw [show x.shape.length - 1 = x.shape.dropLast.length by simp]
      exact insertAt_length_append _ [e] _
    have hdget : dget (simple_gaussian_embedder kw x (m + 1) e ns tr sd).1
        OutKey.samples =
        stackT ((List.range (m + 1)).map (fun c =>
          sampleT
            (dget (simple_model kw x (gaussSizes (m + 1) e) tr).1
              (add_pref OutKey.means c))
            (eluP1T (dget (simple_model kw x (gaussSizes (m + 1) e) tr).1
              (add_pref OutKey.stddevs c))) ns sd)) (-3) := by
      unfold dget
      rw [sge_samples_entry kw x (m + 1) e tr sd hns]
      rfl
    rw [hdget, stackT_shape_neg3 _ x.shape.dropLast ns.toNat e hhead]
    simp

theorem claim_C6_witness :
    (dget (simple_gaussian_embedder {} ⟨Tensor.input "x", [4, 6]⟩ 1 2 2 false none).1
      OutKey.samples).shape =
      (⟨Tensor.input "x", [4, 6]⟩ : Ten).shape.dropLast ++ [1, (2 : Int).toNat, 2]
    ∧ dlookup (simple_gaussian_embedder {} ⟨Tensor.input "x", [4, 6]⟩ 1 2 0 false
        none).1 OutKey.samples = none := by
  constructor
  · exact (claim_C6_gaussian_outputs {} ⟨Tensor.input "x", [4, 6]⟩ 1 2 2 false
      none).2.2.2.2.1 (by decide) (le_refl 1)
  · exact ((claim_C6_gaussian_outputs {} ⟨Tensor.input "x", [4, 6]⟩ 1 2 0 false
      none).2.2.2.2.2 (by decide)).1

/-- C8: the point embedder is deterministic: its construction is a pure
function of its arguments (so two runs with the same inputs, variables
and arguments build identical graphs), and no sampling operation occurs
anywhere in the output or activation graphs it constructs, provided the
input graph contains none. -/
theorem claim_C8_point_embedder_deterministic (kw : Kw) (x : Ten) (n e : Nat)
    (tr : Bool) (hx : occurs isSampleNode x.g = false) :
    (∀ p ∈ (simple_point_embedder kw x n e tr).1, occurs isSampleNode p.2.g = false)
    ∧ (∀ p ∈ (simple_point_embedder kw x n e tr).2, occurs isSampleNode p.2.g = false) := by
  constructor
  · intro p hp
    have hp' : p = (OutKey.means,
        stackT ((List.range n).map (fun c =>
          dget (simple_model kw x (pointSizes n e) tr).1 (add_pref OutKey.means c)))
          (-2)) := by
      simpa [simple_point_embedder] using hp
    subst hp'
    have helem : ∀ tg ∈ ((List.range n).map (fun c =>
        dget (simple_model kw x (pointSizes n e) tr).1
          (add_pref OutKey.means c))).map Ten.g,
        occurs isSampleNode tg = false := by
      intro tg htg
      simp only [List.mem_map] at htg
      obtain ⟨t, ⟨c, hc, rfl⟩, rfl⟩ := htg
      rw [point_head kw x tr e (List.mem_range.mp hc), occS_linear, occS_smNet, hx]
    simp only [stackT]
    rw [occurs_stack]
    simp only [isSampleNode, Bool.false_or]
    rw [List.any_eq_false]
    intro tg htg
    simp [helem tg htg]
  · intro p hp
    rw [show (simple_point_embedder kw x n e tr).2 =
      (simple_model kw x (pointSizes n e) tr).2 from rfl, simple_model_acts] at hp
    by_cases h : 0 < kw.num_bottleneck_nodes
    · rw [if_pos h] at hp
      simp only [List.mem_cons, List.mem_singleton, List.not_mem_nil, or_false] at hp
      rcases hp with hp | hp <;> subst hp
      · simp only
        rw [occS_base, hx]
      · simp only
        rw [occS_linear, occS_base, hx]
    · rw [if_neg h] at hp
      simp only [List.mem_singleton] at hp
      subst hp
      simp only
      rw [occS_base, hx]

theorem claim_C8_witness :
    occurs isSampleNode (Tensor.input "x") = false
    ∧ (∀ p ∈ (simple_point_embedder {} ⟨Tensor.input "x", [4, 6]⟩ 1 2 false).1,
        occurs isSampleNode p.2.g = false) := by
  have hx : occurs isSampleNode ((⟨Tensor.input "x", [4, 6]⟩ : Ten)).g = false := by
    rw [show ((⟨Tensor.input "x", [4, 6]⟩ : Ten)).g = Tensor.input "x" from rfl,
      occurs_input]
    rfl
  exact ⟨by rw [occurs_input]; rfl,
    (claim_C8_point_embedder_deterministic {} ⟨Tensor.input "x", [4, 6]⟩ 1 2 false hx).1⟩

/-- C10 (implicit): with `is_training = False`, `simple_base` applies
no dropout for any `dropout_rate` — the constructed network is
identical across any two dropout-rate settings at inference time — and
a dropout op occurs in the constructed graph iff `is_training` is true
and `dropout_rate > 0` (given a dropout-free input graph). -/
theorem claim_C10_no_dropout_at_inference (kw : Kw) (r r' : Rat) (x : Ten) (tr : Bool)
    (hx : occurs isDropoutNode x.g = false) :
    simple_base {kw with dropout_rate := r} x false =
      simple_base {kw with dropout_rate := r'} x false
    ∧ (occurs isDropoutNode (simple_base kw x tr).g = true ↔
        (tr = true ∧ 0 < kw.dropout_rate)) := by
  refine ⟨base_inference_rate_irrel kw r r' x, ?_⟩
  rw [occD_base, hx]
  simp

theorem claim_C10_witness :
    occurs isDropoutNode (Tensor.input "x") = false
    ∧ simple_base { ({} : Kw) with dropout_rate := 0 } ⟨Tensor.input "x", [4, 6]⟩ false =
        simple_base { ({} : Kw) with dropout_rate := 1/2 } ⟨Tensor.input "x", [4, 6]⟩
          false := by
  have hx : occurs isDropoutNode ((⟨Tensor.input "x", [4, 6]⟩ : Ten)).g = false := by
    rw [show ((⟨Tensor.input "x", [4, 6]⟩ : Ten)).g = Tensor.input "x" from rfl,
      occurs_input]
    rfl
  exact ⟨by rw [occurs_input]; rfl,
    (claim_C10_no_dropout_at_inference {} 0 (1/2) ⟨Tensor.input "x", [4, 6]⟩ false hx).1⟩

/-- C2 counterexample: on the rank-3 input of shape `[2, 0, 5]` (zero
instances), `embed` does not return the stacked per-instance embeddings
the claim describes — `tf.unstack` yields an empty list and
`sub_output_list[0]` raises `IndexError`. -/
theorem claim_C2_counterexample :
    embed ⟨Tensor.input "x", [2, 0, 5]⟩ EmbeddingType.point 1 2 false {} =
      .error (.indexError "list index out of range") := rfl

/-- C2 (amended: for rank-3 inputs with at least one instance, and a
supported embedding type): `embed` returns, for each output key and
each activation key, the per-instance embedder applied to each rank-2
instance slice with the results stacked along axis 1 — i.e. exactly
`mapped_embed` of the selected embedder. -/
theorem claim_C2_amended_rank3_maps (x : Ten) (ty : EmbeddingType) (n e : Nat)
    (tr : Bool) (kw : Kw) (h3 : x.shape.length = 3)
    (hm : 1 ≤ (x.shape[1]?).getD 0) (hty : supportedType ty = true) :
    embed x ty n e tr kw =
      .ok (mapped_embed (fun s => selected_embedder ty n e s tr kw) x
        ((x.shape[1]?).getD 0)) := by
  obtain ⟨m, hm'⟩ : ∃ m, (x.shape[1]?).getD 0 = m + 1 :=
    ⟨(x.shape[1]?).getD 0 - 1, by omega⟩
  cases ty with
  | other s => simp [supportedType] at hty
  | point =>
      simp [h3] at hm'
      simp [embed, create_embedder, h3, hm', mapped_embed, List.range_succ_eq_map]
  | gaussian =>
      simp [h3] at hm'
      simp [embed, create_embedder, h3, hm', mapped_embed, List.range_succ_eq_map]

theorem claim_C2_witness :
    (⟨Tensor.input "x", [2, 1, 5]⟩ : Ten).shape.length = 3
    ∧ 1 ≤ (((⟨Tensor.input "x", [2, 1, 5]⟩ : Ten).shape[1]?).getD 0)
    ∧ supportedType EmbeddingType.point = true
    ∧ embed ⟨Tensor.input "x", [2, 1, 5]⟩ EmbeddingType.point 1 2 false {} =
        .ok (mapped_embed
          (fun s => selected_embedder EmbeddingType.point 1 2 s false {})
          ⟨Tensor.input "x", [2, 1, 5]⟩
          (((⟨Tensor.input "x", [2, 1, 5]⟩ : Ten).shape[1]?).getD 0)) :=
  ⟨rfl, by decide, rfl,
    claim_C2_amended_rank3_maps ⟨Tensor.input "x", [2, 1, 5]⟩ EmbeddingType.point
      1 2 false {} rfl (by decide) rfl⟩

/-- C3 counterexample: on a rank-2 input with an unsupported embedding
type, `embed` raises `ValueError` (propagated from `create_embedder`),
so `ValueError` is not raised only when the rank is invalid. -/
theorem claim_C3_counterexample :
    (⟨Tensor.input "x", [4, 7]⟩ : Ten).shape.length = 2
    ∧ embed ⟨Tensor.input "x", [4, 7]⟩ (EmbeddingType.other "foo") 1 2 false {} =
        .error (.valueError ("Unsupported embedding type: `" ++ "foo" ++ "`.")) :=
  ⟨rfl, rfl⟩

/-- C3 (amended): `embed` raises `ValueError` iff the input rank is
neither 2 nor 3 or the embedding type is unsupported; the rank check
comes first, so an invalid rank yields the rank `ValueError` regardless
of the embedding type and before any embedder graph construction; for
rank-2 input with a supported type, `embed` calls the selected embedder
directly on `input_features`. -/
theorem claim_C3_amended_embed_errors (x : Ten) (ty : EmbeddingType) (n e : Nat)
    (tr : Bool) (kw : Kw) :
    (¬(x.shape.length = 2 ∨ x.shape.length = 3) →
      embed x ty n e tr kw = .error (rankMsg x.shape.length))
    ∧ (isValueError (embed x ty n e tr kw) = true ↔
        (¬(x.shape.length = 2 ∨ x.shape.length = 3) ∨ supportedType ty = false))
    ∧ (x.shape.length = 2 → supportedType ty = true →
        embed x ty n e tr kw = .ok (selected_embedder ty n e x tr kw)) := by
  refine ⟨fun h => ?_, ?_, fun h2 hty => ?_⟩
  · simp [embed, h]
  · by_cases hr : x.shape.length = 2 ∨ x.shape.length = 3
    · cases ty with
      | other s =>
          rcases hr with h2 | h3
          · simp [embed, h2, create_embedder, isValueError, supportedType]
          · simp [embed, h3, create_embedder, isValueError, supportedType]
      | point =>
          rcases hr with h2 | h3
          · simp [embed, h2, create_embedder, isValueError, supportedType]
          · rcases Nat.eq_zero_or_pos ((x.shape[1]?).getD 0) with hm | hm
            · simp [h3] at hm
              simp [embed, h3, hm, create_embedder, isValueError, supportedType]
            · obtain ⟨m, hm'⟩ : ∃ m, (x.shape[1]?).getD 0 = m + 1 :=
                ⟨(x.shape[1]?).getD 0 - 1, by omega⟩
              simp [h3] at hm'
              simp [embed, h3, hm', create_embedder, isValueError, supportedType,
                List.range_succ_eq_map]
      | gaussian =>
          rcases hr with h2 | h3
          · simp [embed, h2, create_embedder, isValueError, supportedType]
          · rcases Nat.eq_zero_or_pos ((x.shape[1]?).getD 0) with hm | hm
            · simp [h3] at hm
              simp [embed, h3, hm, create_embedder, isValueError, supportedType]
            · obtain ⟨m, hm'⟩ : ∃ m, (x.shape[1]?).getD 0 = m + 1 :=
                ⟨(x.shape[1]?).getD 0 - 1, by omega⟩
              simp [h3] at hm'
              simp [embed, h3, hm', create_embedder, isValueError, supportedType,
                List.range_succ_eq_map]
    · simp [embed, hr, isValueError, rankMsg]
  · cases ty with
    | other s => simp [supportedType] at hty
    | point => simp [embed, h2, create_embedder]
    | gaussian => simp [embed, h2, create_embedder]

theorem claim_C3_witness :
    ¬((⟨Tensor.input "x", [1, 2, 3, 4]⟩ : Ten).shape.length = 2 ∨
      (⟨Tensor.input "x", [1, 2, 3, 4]⟩ : Ten).shape.length = 3)
    ∧ embed ⟨Tensor.input "x", [1, 2, 3, 4]⟩ EmbeddingType.point 1 2 false {} =
        .error (rankMsg (⟨Tensor.input "x", [1, 2, 3, 4]⟩ : Ten).shape.length)
    ∧ embed ⟨Tensor.input "x", [4, 7]⟩ EmbeddingType.point 1 2 false {} =
        .ok (selected_embedder EmbeddingType.point 1 2 ⟨Tensor.input "x", [4, 7]⟩
          false {}) :=
  ⟨by decide,
    (claim_C3_amended_embed_errors ⟨Tensor.input "x", [1, 2, 3, 4]⟩
      EmbeddingType.point 1 2 false {}).1 (by decide),
    (claim_C3_amended_embed_errors ⟨Tensor.input "x", [4, 7]⟩
      EmbeddingType.point 1 2 false {}).2.2 rfl rfl⟩

end Poem
